import Mathlib

/-!
Verification of hostwatch: the resolver, the echo prober and the driver loop

A shallow embedding of `main.go`.  Go's `int` is modelled by `Int` (the only
counter, `seq`, grows by one per iteration of a loop that sleeps a second, far
from the bound of a machine word; the 16-bit fields of the wire format are
reduced explicitly), a byte by a `Nat` below 256, a point in time and a
`time.Duration` by an `Int` number of nanoseconds.  Everything the program obtains from outside itself (the process
id, the clock, the raw socket, the name resolver and the two entry points of
`golang.org/x/net/icmp`) is an explicit input; everything it does to the
outside (lines printed, look-ups, socket operations, sleeps) is recorded in an
event trace.
-/

namespace Hostwatch

/-! ## Data model -/

/-- A Go `error` value, kept as its message. -/
abbrev Error := String

/-- A `net.IP`: a slice of 4 or 16 bytes. -/
abbrev IP := List Nat

/-- A `*net.IPAddr` used as `net.Addr`. -/
structure Addr where
  IP : IP
  Zone : String
deriving DecidableEq, Repr

/-- An `icmp.Type`: an interface value holding an `ipv4.ICMPType` or an
`ipv6.ICMPType`; two values are equal when both the dynamic type and the
number agree. -/
inductive ICMPType where
  | v4 (t : Nat)
  | v6 (t : Nat)
deriving DecidableEq, Repr

/-- Modelled from the spec: the IPv4 Echo Request type of section 4.2 step 3
(`ipv4.ICMPTypeEcho`, declared in golang.org/x/net/ipv4, IANA number 8). -/
def ipv4.ICMPTypeEcho : ICMPType := .v4 8

/-- Modelled from the spec: the IPv4 Echo Reply type of section 4.2 step 8
(`ipv4.ICMPTypeEchoReply`, declared in golang.org/x/net/ipv4, IANA number 0). -/
def ipv4.ICMPTypeEchoReply : ICMPType := .v4 0

/-- Modelled from the spec: the IPv6 Echo Request type of section 4.2 step 3
(`ipv6.ICMPTypeEchoRequest`, declared in golang.org/x/net/ipv6, IANA number 128). -/
def ipv6.ICMPTypeEchoRequest : ICMPType := .v6 128

/-- Modelled from the spec: the IPv6 Echo Reply type of section 4.2 step 8
(`ipv6.ICMPTypeEchoReply`, declared in golang.org/x/net/ipv6, IANA number 129). -/
def ipv6.ICMPTypeEchoReply : ICMPType := .v6 129

/-- An `icmp.Echo` body. -/
structure Echo where
  ID : Int
  Seq : Int
  Data : List Nat
deriving DecidableEq, Repr

/-- An `icmp.MessageBody`: either a `*icmp.Echo` or a value of any other body
type of the library (kept as its bytes). -/
inductive MessageBody where
  | echo (e : Echo)
  | other (raw : List Nat)
deriving DecidableEq, Repr

/-- An `icmp.Message` (its field `Type` is written `Type_`); `Body = none` is
the nil interface. -/
structure Message where
  Type_ : ICMPType
  Code : Int
  Checksum : Int
  Body : Option MessageBody
deriving DecidableEq, Repr

/-- The lines the program prints, one constructor per `Printf`/`Println` site
(the five usage lines are one), carrying the values formatted into the line. -/
inductive Line where
  | usage (prog : String)
  | watching (host : String)
  | resolveError (host : String) (err : Error)
  | resolvedTo (dst : Addr) (version : String)
  | pingingUntil
  | nowResponding (host : String)
  | connError (protocol : String) (err : Error)
  | marshalError (err : Error)
  | sendError (dst : Addr) (err : Error)
  | deadlineError (err : Error)
  | timeoutOrError (seq : Int) (dst : Addr) (err : Error)
  | parseError (seq : Int) (dst : Addr) (peer : Addr) (err : Error)
  | receivedICMP (seq : Int) (dst : Addr) (typ : ICMPType) (peer : Addr)
  | pingReply (peer : Addr) (seq : Int) (duration : Int) (protocol : String)
  | wrongIdSeq (seq : Int) (dst : Addr) (id : Int) (replySeq : Int) (peer : Addr)
  | malformedReply (seq : Int) (dst : Addr) (peer : Addr)
deriving DecidableEq, Repr

/-- What the program does to the outside world, in order. -/
inductive Event where
  | print (l : Line)
  | resolveIPAddr (network : String) (host : String)
  | listenPacket (network : String) (address : String) (ok : Bool)
  | writeTo (b : List Nat) (dst : Addr)
  | setReadDeadline (t : Int)
  | readFrom
  | close
  | pingCall (seq : Int) (isIPv6 : Bool)
  | sleep (d : Int)
deriving DecidableEq, Repr

/-- Whatever one call of `ping` obtains from outside: the process id, the
clock, the socket and the two library entry points.  An `Option Error` is a
returned `error`, `none` being nil. -/
structure Sys where
  /-- The value of `os.Getpid()`. -/
  Getpid : Nat
  /-- The error returned by `icmp.ListenPacket(network, address)`. -/
  ListenPacket : String → String → Option Error
  /-- The result of `message.Marshal(nil)`. -/
  Marshal : Message → Except Error (List Nat)
  /-- The clock: `Now k` is the reading of the k-th clock access of the call
  (k = 0, 1, 2). -/
  Now : Nat → Int
  /-- The error returned by `conn.WriteTo(messageBytes, dst)`. -/
  WriteTo : List Nat → Addr → Option Error
  /-- The error returned by `conn.SetReadDeadline(t)`. -/
  SetReadDeadline : Int → Option Error
  /-- The result of `conn.ReadFrom(reply)`: the datagram that arrived and its
  sender, or an error (deadline expiry included). -/
  ReadFrom : Except Error (List Nat × Addr)
  /-- The result of `icmp.ParseMessage(proto, b)`. -/
  ParseMessage : Nat → List Nat → Except Error Message

/-- The constant `time.Second`, in nanoseconds. -/
def Second : Int := 1000000000

/-- The payload `[]byte("hostwatch ping")`; the text is ASCII, so its bytes are
its characters' code points. -/
def payload : List Nat := "hostwatch ping".toList.map Char.toNat

/-! ## The echo prober -/

/-- Lines 115-123 of `ping`: the Echo Request message. -/
def echoRequest (pid : Nat) (seq : Int) (icmpType : ICMPType) : Message :=
  { Type_ := icmpType, Code := 0, Checksum := 0,
    Body := some (.echo { ID := (pid &&& 0xffff : Nat), Seq := seq, Data := payload }) }

/-- Lines 114-217 of `ping`: everything after `defer conn.Close()`.  The result
is the returned boolean and the events of this part, oldest first. -/
def pingBody (sys : Sys) (dst : Addr) (seq : Int) (isIPv6 : Bool)
    (icmpType : ICMPType) (protocol : String) : Bool × List Event :=
  let message := echoRequest sys.Getpid seq icmpType
  match sys.Marshal message with
  | .error err => (false, [.print (.marshalError err)])
  | .ok messageBytes =>
    let start := sys.Now 0
    match sys.WriteTo messageBytes dst with
    | some err => (false, [.writeTo messageBytes dst, .print (.sendError dst err)])
    | none =>
      let deadline := sys.Now 1 + 3 * Second
      match sys.SetReadDeadline deadline with
      | some err =>
        (false, [.writeTo messageBytes dst, .setReadDeadline deadline,
                 .print (.deadlineError err)])
      | none =>
        match sys.ReadFrom with
        | .error err =>
          (false, [.writeTo messageBytes dst, .setReadDeadline deadline, .readFrom,
                   .print (.timeoutOrError seq dst err)])
        | .ok (datagram, peer) =>
          let reply := datagram.take 1500
          let duration := sys.Now 2 - start
          let pre : List Event :=
            [.writeTo messageBytes dst, .setReadDeadline deadline, .readFrom]
          match sys.ParseMessage (if isIPv6 then 58 else 1) reply with
          | .error err => (false, pre ++ [.print (.parseError seq dst peer err)])
          | .ok replyMessage =>
            let expectedEchoReplyType :=
              if isIPv6 then ipv6.ICMPTypeEchoReply else ipv4.ICMPTypeEchoReply
            if replyMessage.Type_ ≠ expectedEchoReplyType then
              (false, pre ++ [.print (.receivedICMP seq dst replyMessage.Type_ peer)])
            else
              match replyMessage.Body with
              | some (.echo echoReply) =>
                let expectedID : Int := (sys.Getpid &&& 0xffff : Nat)
                if echoReply.ID = expectedID ∧ echoReply.Seq = seq then
                  (true, pre ++ [.print (.pingReply peer seq duration protocol)])
                else
                  (false, pre ++ [.print (.wrongIdSeq seq dst echoReply.ID echoReply.Seq peer)])
              | _ => (false, pre ++ [.print (.malformedReply seq dst peer)])

/-- The function `ping`.  The socket is opened first; when that fails the call
returns at once, otherwise the deferred `conn.Close()` runs after the rest of
the body, whatever return statement ended it. -/
def ping (sys : Sys) (dst : Addr) (seq : Int) (isIPv6 : Bool) : Bool × List Event :=
  let network := if isIPv6 then "ip6:ipv6-icmp" else "ip4:icmp"
  let address := if isIPv6 then "::" else "0.0.0.0"
  let icmpType := if isIPv6 then ipv6.ICMPTypeEchoRequest else ipv4.ICMPTypeEcho
  let protocol := if isIPv6 then "IPv6" else "IPv4"
  match sys.ListenPacket network address with
  | some err =>
    (false, [.listenPacket network address false, .print (.connError protocol err)])
  | none =>
    let r := pingBody sys dst seq isIPv6 icmpType protocol
    (r.1, .listenPacket network address true :: (r.2 ++ [.close]))

/-- The family-specific Echo Request type (lines 100 and 104). -/
def echoRequestType (isIPv6 : Bool) : ICMPType :=
  if isIPv6 then ipv6.ICMPTypeEchoRequest else ipv4.ICMPTypeEcho

/-- The family-specific Echo Reply type (lines 185-190). -/
def echoReplyType (isIPv6 : Bool) : ICMPType :=
  if isIPv6 then ipv6.ICMPTypeEchoReply else ipv4.ICMPTypeEchoReply

/-- The call `ping(dst, seq, isIPv6)` gets as far as writing its request: the
socket is opened and the request is marshalled and written without error. -/
def Written (sys : Sys) (dst : Addr) (seq : Int) (isIPv6 : Bool) : Prop :=
  sys.ListenPacket (if isIPv6 then "ip6:ipv6-icmp" else "ip4:icmp")
      (if isIPv6 then "::" else "0.0.0.0") = none ∧
    ∃ messageBytes,
      sys.Marshal (echoRequest sys.Getpid seq (echoRequestType isIPv6)) = .ok messageBytes ∧
      sys.WriteTo messageBytes dst = none

/-- The call `ping(dst, seq, isIPv6)` receives `datagram` from `peer`: the
request is written, the read deadline is set and the read returns, all without
error. -/
def Received (sys : Sys) (dst : Addr) (seq : Int) (isIPv6 : Bool)
    (datagram : List Nat) (peer : Addr) : Prop :=
  Written sys dst seq isIPv6 ∧
    sys.SetReadDeadline (sys.Now 1 + 3 * Second) = none ∧
    sys.ReadFrom = .ok (datagram, peer)

/-- The message that `ping` parses out of a received datagram: the first 1500
bytes, read with the protocol number of the family. -/
def parsedReply (sys : Sys) (isIPv6 : Bool) (datagram : List Nat) : Except Error Message :=
  sys.ParseMessage (if isIPv6 then 58 else 1) (datagram.take 1500)

/-! ## The library's wire format -/

/-- The conversion `uint16(x)` of a Go `int`. -/
def uint16 (x : Int) : Nat := (x % 65536).toNat

/-- The two bytes written by `binary.BigEndian.PutUint16`. -/
def putUint16 (v : Nat) : List Nat := [v / 256 % 256, v % 256]

/-- The value read by `binary.BigEndian.Uint16` from two bytes. -/
def getUint16 (b0 b1 : Nat) : Nat := b0 * 256 + b1

/-- The sum of the 16-bit words of `b` (low byte first), a trailing odd byte
added as it is, in 32-bit arithmetic. -/
def checksumSum : List Nat → Nat
  | b0 :: b1 :: rest => (b1 * 256 + b0 + checksumSum rest) % 2 ^ 32
  | [b0] => b0
  | [] => 0

/-- Modelled from the spec: the Internet checksum that the serialization step
computes (section 4.2 step 3); `checksum` of golang.org/x/net/icmp is not
under src/.  The carries are folded twice and the result is complemented. -/
def checksum (b : List Nat) : Nat :=
  let s := checksumSum b
  let s := (s / 65536 + s % 65536) % 2 ^ 32
  let s := (s + s / 65536) % 2 ^ 32
  65535 - s % 65536

/-- Modelled from the spec: the wire form of an Echo body per the ICMP message
format (section 4.2 step 3): identifier and sequence as 16-bit big-endian
fields, then the payload; `(*icmp.Echo).Marshal` is not under src/. -/
def Echo.Marshal (p : Echo) : List Nat :=
  putUint16 (uint16 p.ID) ++ putUint16 (uint16 p.Seq) ++ p.Data

/-- Modelled from the spec: the serialization step of section 4.2 step 3,
`(*icmp.Message).Marshal(nil)` of golang.org/x/net/icmp, which is not under
src/.  The header is type, code and a 16-bit checksum; with a nil pseudo-header
the checksum is computed for ICMPv4 and left zero for ICMPv6 (the kernel fills
it in). -/
def Message.Marshal (m : Message) : Except Error (List Nat) :=
  let mtype := match m.Type_ with
    | .v4 t => t % 256
    | .v6 t => t % 256
  let body := match m.Body with
    | some (.echo e) => e.Marshal
    | some (.other raw) => raw
    | none => []
  let b := [mtype, (m.Code % 256).toNat, 0, 0] ++ body
  match m.Type_ with
  | .v6 _ => .ok b
  | .v4 _ =>
    let s := checksum b
    .ok ([mtype, (m.Code % 256).toNat, s % 256, s / 256 % 256] ++ body)

/-- Modelled from the spec: `parseEcho` of golang.org/x/net/icmp, not under
src/: the inverse reading of the Echo wire form, failing on fewer than four
bytes. -/
def parseEcho (b : List Nat) : Except Error MessageBody :=
  match b with
  | i0 :: i1 :: s0 :: s1 :: data =>
    .ok (.echo { ID := getUint16 i0 i1, Seq := getUint16 s0 s1, Data := data })
  | _ => .error "message too short"

/-- Modelled from the spec: the parse step of section 4.2 step 7,
`icmp.ParseMessage` of golang.org/x/net/icmp, which is not under src/.  The
protocol number selects the type's family; the four echo types have an Echo
body; the body parsers of the other types are the parameter `parseOther`. -/
def ParseMessage (parseOther : ICMPType → List Nat → Except Error MessageBody)
    (proto : Nat) (b : List Nat) : Except Error Message :=
  match b with
  | t :: code :: c0 :: c1 :: rest =>
    let typ : Option ICMPType :=
      if proto = 1 then some (.v4 t) else if proto = 58 then some (.v6 t) else none
    match typ with
    | none => .error "invalid protocol"
    | some typ =>
      let body :=
        if typ = ipv4.ICMPTypeEcho ∨ typ = ipv4.ICMPTypeEchoReply ∨
            typ = ipv6.ICMPTypeEchoRequest ∨ typ = ipv6.ICMPTypeEchoReply then
          parseEcho rest
        else parseOther typ rest
      match body with
      | .error err => .error err
      | .ok body =>
        .ok { Type_ := typ, Code := code, Checksum := getUint16 c0 c1, Body := some body }
  | _ => .error "message too short"

/-- Modelled from the spec: `parseRawBody` of golang.org/x/net/icmp, not under
src/: the body of a type without a parser of its own is kept as raw bytes. -/
def parseRawBody (_typ : ICMPType) (b : List Nat) : Except Error MessageBody :=
  .ok (.other b)

/-- A system in which nothing fails, the two library entry points are the
modelled ones, the clock reads 0, 1000 and 2000 ns, and `datagram` arrives
from `peer`. -/
def replySys (pid : Nat) (datagram : List Nat) (peer : Addr) : Sys where
  Getpid := pid
  ListenPacket := fun _ _ => none
  Marshal := Message.Marshal
  Now := fun k => 1000 * k
  WriteTo := fun _ _ => none
  SetReadDeadline := fun _ => none
  ReadFrom := .ok (datagram, peer)
  ParseMessage := ParseMessage parseRawBody

/-- The datagram sent back by a responder that echoes the request of
`ping(dst, seq, isIPv6)`: the same identifier, sequence and payload as
marshalled into the request, under the family's Echo Reply type. -/
def echoOf (pid : Nat) (seq : Int) (isIPv6 : Bool) : List Nat :=
  match (echoRequest pid seq (echoReplyType isIPv6)).Marshal with
  | .ok b => b
  | .error _ => []

/-- A system in which nothing fails and the responder at the destination
echoes the request of `ping(dst, seq, isIPv6)` back. -/
def echoingSys (pid : Nat) (seq : Int) (isIPv6 : Bool) (peer : Addr) : Sys :=
  replySys pid (echoOf pid seq isIPv6) peer

/-! ## The resolver and the driver -/

/-- Modelled from the spec: the 4-byte form of a literal (section 4.1 step 2);
`net.IPv4` of the Go standard library is not under src/.  `net.ParseIP`
returns the 16-byte form, an IPv4 address `a.b.c.d` being the IPv4-mapped
address `::ffff:a.b.c.d`. -/
def IPv4 (a b c d : Nat) : IP := [0, 0, 0, 0, 0, 0, 0, 0, 0, 0, 0xff, 0xff, a, b, c, d]

/-- Modelled from the spec: "the literal has no valid 4-byte form" (section 4.1
step 2); `net.IP.To4` of the Go standard library is not under src/.  A 4-byte
slice is returned as it is, a 16-byte slice with the IPv4-mapped beginning
gives its last four bytes, anything else gives nil. -/
def To4 (ip : IP) : Option IP :=
  if ip.length = 4 then some ip
  else if ip.length = 16 ∧ ip.take 10 = List.replicate 10 0 ∧
      (ip.drop 10).take 2 = [0xff, 0xff] then some (ip.drop 12)
  else none

/-- Whatever `main` obtains from outside: the literal parser and the resolver
of package `net` as black boxes, and the system seen by each call of `ping`
(`SysAt k` for the call number k, counted from 0). -/
structure Host where
  /-- The result of `net.ParseIP(host)`, `none` being nil. -/
  ParseIP : String → Option IP
  /-- The result of `net.ResolveIPAddr(network, host)`. -/
  ResolveIPAddr : String → String → Except Error Addr
  /-- The system during the k-th call of `ping`. -/
  SysAt : Nat → Sys

/-- The function `getIPVersion`. -/
def getIPVersion (isIPv6 : Bool) : String :=
  if isIPv6 then "IPv6" else "IPv4"

/-- The variables of `main` after the resolution step (lines 29-57): the pair
`(dst, err)` is one `Except` value, and `events` lists the look-ups made. -/
structure Resolution where
  isIPv6 : Bool
  isHostname : Bool
  result : Except Error Addr
  events : List Event

/-- Lines 29-57 of `main`: the resolution step. -/
def resolve (env : Host) (host : String) : Resolution :=
  match env.ParseIP host with
  | some ip =>
    let isIPv6 := (To4 ip).isNone
    if isIPv6 then
      { isIPv6 := isIPv6, isHostname := false, result := env.ResolveIPAddr "ip6" host,
        events := [.resolveIPAddr "ip6" host] }
    else
      { isIPv6 := isIPv6, isHostname := false, result := env.ResolveIPAddr "ip4" host,
        events := [.resolveIPAddr "ip4" host] }
  | none =>
    match env.ResolveIPAddr "ip4" host with
    | .ok dst =>
      { isIPv6 := false, isHostname := true, result := .ok dst,
        events := [.resolveIPAddr "ip4" host] }
    | .error _ =>
      match env.ResolveIPAddr "ip6" host with
      | .ok dst =>
        { isIPv6 := true, isHostname := true, result := .ok dst,
          events := [.resolveIPAddr "ip4" host, .resolveIPAddr "ip6" host] }
      | .error err =>
        { isIPv6 := false, isHostname := true, result := .error err,
          events := [.resolveIPAddr "ip4" host, .resolveIPAddr "ip6" host] }

/-- The state of the driver loop (lines 72-82): the variable `seq`, whether
the loop has been left, and two ghost fields, the number of calls of `ping`
made and the events of the loop so far. -/
structure LoopState where
  seq : Int
  finished : Bool
  calls : Nat
  events : List Event

/-- The state on entry to the loop: `seq := 1`. -/
def loopInit : LoopState :=
  { seq := 1, finished := false, calls := 0, events := [] }

/-- One iteration of the loop `for { ... }` of `main`; a loop that has been
left stays as it is. -/
def loopStep (env : Host) (host : String) (dst : Addr) (isIPv6 : Bool)
    (s : LoopState) : LoopState :=
  if s.finished then s
  else
    let r := ping (env.SysAt s.calls) dst s.seq isIPv6
    if r.1 then
      { seq := s.seq, finished := true, calls := s.calls + 1,
        events := s.events ++ (.pingCall s.seq isIPv6 :: r.2) ++
          [.print (.nowResponding host)] }
    else
      { seq := s.seq + 1, finished := false, calls := s.calls + 1,
        events := s.events ++ (.pingCall s.seq isIPv6 :: r.2) ++ [.sleep (1 * Second)] }

/-- The loop after at most `n` iterations. -/
def loopRun (env : Host) (host : String) (dst : Addr) (isIPv6 : Bool) : Nat → LoopState
  | 0 => loopInit
  | n + 1 => loopStep env host dst isIPv6 (loopRun env host dst isIPv6 n)

/-- The function `main`, its loop cut off after `fuel` iterations.  The result
is the event trace and the exit code, `none` while the loop is still running. -/
def main (env : Host) (args : List String) (fuel : Nat) : List Event × Option Nat :=
  if args.length < 2 then
    ([.print (.usage (args.headD ""))], some 1)
  else
    let host := args.getD 1 ""
    let r := resolve env host
    let pre : List Event := .print (.watching host) :: r.events
    match r.result with
    | .error err => (pre ++ [.print (.resolveError host err)], some 1)
    | .ok dst =>
      let pre := pre ++
        (if r.isHostname then [.print (.resolvedTo dst (getIPVersion r.isIPv6))] else []) ++
        [.print .pingingUntil]
      let s := loopRun env host dst r.isIPv6 fuel
      (pre ++ s.events, if s.finished then some 0 else none)

/-- The change an event makes to the number of open ICMP sockets. -/
def socketDelta : Event → Int
  | .listenPacket _ _ true => 1
  | .close => -1
  | _ => 0

/-- The number of ICMP sockets open after a trace. -/
def openSockets (evs : List Event) : Int := (evs.map socketDelta).sum

/-- The sequence numbers passed to `ping` in a trace, oldest first. -/
def pingSeqs : List Event → List Int
  | [] => []
  | .pingCall seq _ :: rest => seq :: pingSeqs rest
  | _ :: rest => pingSeqs rest

/-- The deadlines passed to `SetReadDeadline` in a trace, oldest first. -/
def deadlines : List Event → List Int
  | [] => []
  | .setReadDeadline t :: rest => t :: deadlines rest
  | _ :: rest => deadlines rest

/-- The lines printed in a trace, oldest first. -/
def printed : List Event → List Line
  | [] => []
  | .print l :: rest => l :: printed rest
  | _ :: rest => printed rest

/-- The events that `main` performs itself, outside every call of `ping`: the
look-ups, the call of `ping`, the sleep between two calls and the lines that
`main` prints. -/
def outsidePing : Event → Bool
  | .resolveIPAddr _ _ => true
  | .pingCall _ _ => true
  | .sleep _ => true
  | .print (.usage _) => true
  | .print (.watching _) => true
  | .print (.resolveError _ _) => true
  | .print (.resolvedTo _ _) => true
  | .print .pingingUntil => true
  | .print (.nowResponding _) => true
  | _ => false

/-- A trace keeps the ICMP socket scoped: no socket is open at its end, at
every point of it the number of open sockets is 0 or 1, and it is 0 whenever
the next event is one that `main` performs outside `ping`. -/
def Scoped (evs : List Event) : Prop :=
  openSockets evs = 0 ∧
    ∀ n, (0 ≤ openSockets (evs.take n) ∧ openSockets (evs.take n) ≤ 1) ∧
      ∀ e, evs[n]? = some e → outsidePing e = true → openSockets (evs.take n) = 0

/-- A host for examples: the literal parser and the resolver are the given
functions, and every call of `ping` meets the echoing responder of
`echoingSys`. -/
def echoingHost (pid : Nat) (parse : String → Option IP)
    (lookup : String → String → Except Error Addr) (isIPv6 : Bool) (peer : Addr) : Host where
  ParseIP := parse
  ResolveIPAddr := lookup
  SysAt := fun k => echoingSys pid (k + 1) isIPv6 peer

/-- A host for examples whose look-ups succeed with `dst` and where the first
`failures` calls of `ping` run into the read deadline and every later call
meets the echoing responder. -/
def flakyHost (pid : Nat) (failures : Nat) (dst : Addr) : Host where
  ParseIP := fun _ => none
  ResolveIPAddr := fun _ _ => .ok dst
  SysAt := fun k =>
    if k < failures then
      { echoingSys pid (k + 1) false dst with ReadFrom := .error "i/o timeout" }
    else echoingSys pid (k + 1) false dst

/-- The outcome of the call of `ping` number `j` (counted from 0) when it is
made with sequence `j + 1`. -/
def callResult (env : Host) (dst : Addr) (isIPv6 : Bool) (j : Nat) : Bool :=
  (ping (env.SysAt j) dst ((j : Int) + 1) isIPv6).1

end Hostwatch

namespace Hostwatch

/-! ## The prober's classification of a received message -/

theorem ping_of_received (sys : Sys) (dst : Addr) (seq : Int) (isIPv6 : Bool)
    (datagram : List Nat) (peer : Addr) (m : Message)
    (hrecv : Received sys dst seq isIPv6 datagram peer)
    (hparse : parsedReply sys isIPv6 datagram = .ok m) :
    ∃ pre : List Event, printed pre = [] ∧
      ping sys dst seq isIPv6 =
        if m.Type_ ≠ echoReplyType isIPv6 then
          (false, pre ++ [.print (.receivedICMP seq dst m.Type_ peer), .close])
        else
          match m.Body with
          | some (.echo e) =>
            if e.ID = ((sys.Getpid &&& 0xffff : Nat) : Int) ∧ e.Seq = seq then
              (true, pre ++ [.print (.pingReply peer seq (sys.Now 2 - sys.Now 0)
                (if isIPv6 then "IPv6" else "IPv4")), .close])
            else
              (false, pre ++ [.print (.wrongIdSeq seq dst e.ID e.Seq peer), .close])
          | _ => (false, pre ++ [.print (.malformedReply seq dst peer), .close]) := by
  obtain ⟨⟨hl, b, hm, hw⟩, hd, hr⟩ := hrecv
  refine ⟨[.listenPacket (if isIPv6 then "ip6:ipv6-icmp" else "ip4:icmp")
      (if isIPv6 then "::" else "0.0.0.0") true, .writeTo b dst,
      .setReadDeadline (sys.Now 1 + 3 * Second), .readFrom], rfl, ?_⟩
  unfold parsedReply at hparse
  unfold echoRequestType at hm
  simp only [ping, pingBody, hl, hm, hw, hd, hr, hparse, echoReplyType]
  split_ifs <;> first | rfl | (split <;> first | rfl | (split_ifs <;> simp_all))

theorem printed_append (a b : List Event) : printed (a ++ b) = printed a ++ printed b := by
  induction a with
  | nil => rfl
  | cons e a ih => cases e <;> simp [printed, ih]

theorem ping_success_iff_aux (sys : Sys) (dst : Addr) (seq : Int) (isIPv6 : Bool)
    (datagram : List Nat) (peer : Addr) (m : Message)
    (hrecv : Received sys dst seq isIPv6 datagram peer)
    (hparse : parsedReply sys isIPv6 datagram = .ok m) :
    (ping sys dst seq isIPv6).1 = true ↔
      m.Type_ = echoReplyType isIPv6 ∧
        ∃ e, m.Body = some (.echo e) ∧
          e.ID = ((sys.Getpid &&& 0xffff : Nat) : Int) ∧ e.Seq = seq := by
  obtain ⟨pre, -, h⟩ := ping_of_received sys dst seq isIPv6 datagram peer m hrecv hparse
  rw [h]
  by_cases ht : m.Type_ = echoReplyType isIPv6
  · rcases hb : m.Body with _ | (e | raw)
    · simp [ht]
    · by_cases hc : e.ID = ((sys.Getpid &&& 0xffff : Nat) : Int) ∧ e.Seq = seq
      · simp [ht, hc]
      · simp only [ht, ne_eq, not_true_eq_false, if_false, hc]
        simp only [Bool.false_eq_true, true_and, false_iff, not_exists, not_and]
        intro e2 he2 hid hseq
        simp only [Option.some.injEq, MessageBody.echo.injEq] at he2
        subst he2
        exact hc ⟨hid, hseq⟩
    · simp [ht]
  · simp [ht]

/-- C1: when `ping` has received a datagram that parses to `m`, it returns true
exactly when `m` has the family's Echo Reply type, its body is an Echo body,
the body's ID is `pid & 0xffff` and its Seq is the input sequence; so a reply
with another sequence never gives success. -/
theorem ping_success_iff (sys : Sys) (dst : Addr) (seq : Int) (isIPv6 : Bool)
    (datagram : List Nat) (peer : Addr) (m : Message)
    (hrecv : Received sys dst seq isIPv6 datagram peer)
    (hparse : parsedReply sys isIPv6 datagram = .ok m) :
    ((ping sys dst seq isIPv6).1 = true ↔
        m.Type_ = echoReplyType isIPv6 ∧
          ∃ e, m.Body = some (.echo e) ∧
            e.ID = ((sys.Getpid &&& 0xffff : Nat) : Int) ∧ e.Seq = seq) ∧
      (∀ e, m.Body = some (.echo e) → e.Seq ≠ seq → (ping sys dst seq isIPv6).1 = false) := by
  obtain ⟨pre, -, h⟩ := ping_of_received sys dst seq isIPv6 datagram peer m hrecv hparse
  rw [h]
  by_cases ht : m.Type_ = echoReplyType isIPv6
  · rcases hb : m.Body with _ | (e | raw)
    · simp [ht]
    · by_cases hc : e.ID = ((sys.Getpid &&& 0xffff : Nat) : Int) ∧ e.Seq = seq
      · simp [ht, hc]
      · simp only [ht, ne_eq, not_true_eq_false, if_false, hc]
        simp only [Bool.false_eq_true, true_and, false_iff, not_exists, not_and]
        refine ⟨?_, fun _ _ _ => trivial⟩
        intro e2 he2 hid hseq
        simp only [Option.some.injEq, MessageBody.echo.injEq] at he2
        subst he2
        exact hc ⟨hid, hseq⟩
    · simp [ht]
  · simp [ht]

theorem ping_success_iff_witness :
    Received (replySys 70000 [0, 0, 0, 0, 17, 112, 0, 5] ⟨[8, 8, 8, 8], ""⟩)
        ⟨[8, 8, 8, 8], ""⟩ 5 false [0, 0, 0, 0, 17, 112, 0, 5] ⟨[8, 8, 8, 8], ""⟩ ∧
      parsedReply (replySys 70000 [0, 0, 0, 0, 17, 112, 0, 5] ⟨[8, 8, 8, 8], ""⟩) false
          [0, 0, 0, 0, 17, 112, 0, 5] =
        .ok { Type_ := .v4 0, Code := 0, Checksum := 0,
              Body := some (.echo { ID := 4464, Seq := 5, Data := [] }) } ∧
      (ping (replySys 70000 [0, 0, 0, 0, 17, 112, 0, 5] ⟨[8, 8, 8, 8], ""⟩)
        ⟨[8, 8, 8, 8], ""⟩ 5 false).1 = true :=
  have hrecv : Received (replySys 70000 [0, 0, 0, 0, 17, 112, 0, 5] ⟨[8, 8, 8, 8], ""⟩)
      ⟨[8, 8, 8, 8], ""⟩ 5 false [0, 0, 0, 0, 17, 112, 0, 5] ⟨[8, 8, 8, 8], ""⟩ :=
    ⟨⟨rfl, _, rfl, rfl⟩, rfl, rfl⟩
  ⟨hrecv, rfl,
    ((ping_success_iff _ _ _ _ _ _ _ hrecv rfl).1).2 ⟨rfl, _, rfl, by decide, rfl⟩⟩

/-- C3: when `ping` has received a datagram that parses to a message whose
type is not the family's Echo Reply type, it returns false and the one line it
prints is the "received ICMP <type> from <peer>" line, whatever the body of the
message is. -/
theorem ping_other_type (sys : Sys) (dst : Addr) (seq : Int) (isIPv6 : Bool)
    (datagram : List Nat) (peer : Addr) (m : Message)
    (hrecv : Received sys dst seq isIPv6 datagram peer)
    (hparse : parsedReply sys isIPv6 datagram = .ok m)
    (htype : m.Type_ ≠ echoReplyType isIPv6) :
    (ping sys dst seq isIPv6).1 = false ∧
      printed (ping sys dst seq isIPv6).2 = [.receivedICMP seq dst m.Type_ peer] := by
  obtain ⟨pre, hpre, h⟩ := ping_of_received sys dst seq isIPv6 datagram peer m hrecv hparse
  rw [h, if_pos htype]
  exact ⟨rfl, by simp [printed_append, hpre, printed]⟩

theorem ping_other_type_witness :
    Received (replySys 70000 [8, 0, 0, 0, 17, 112, 0, 5] ⟨[8, 8, 8, 8], ""⟩)
        ⟨[8, 8, 8, 8], ""⟩ 5 false [8, 0, 0, 0, 17, 112, 0, 5] ⟨[8, 8, 8, 8], ""⟩ ∧
      parsedReply (replySys 70000 [8, 0, 0, 0, 17, 112, 0, 5] ⟨[8, 8, 8, 8], ""⟩) false
          [8, 0, 0, 0, 17, 112, 0, 5] =
        .ok { Type_ := .v4 8, Code := 0, Checksum := 0,
              Body := some (.echo { ID := ((70000 &&& 0xffff : Nat) : Int), Seq := 5, Data := [] }) } ∧
      (ping (replySys 70000 [8, 0, 0, 0, 17, 112, 0, 5] ⟨[8, 8, 8, 8], ""⟩)
          ⟨[8, 8, 8, 8], ""⟩ 5 false).1 = false ∧
      printed (ping (replySys 70000 [8, 0, 0, 0, 17, 112, 0, 5] ⟨[8, 8, 8, 8], ""⟩)
          ⟨[8, 8, 8, 8], ""⟩ 5 false).2 =
        [.receivedICMP 5 ⟨[8, 8, 8, 8], ""⟩ (.v4 8) ⟨[8, 8, 8, 8], ""⟩] :=
  have hrecv : Received (replySys 70000 [8, 0, 0, 0, 17, 112, 0, 5] ⟨[8, 8, 8, 8], ""⟩)
      ⟨[8, 8, 8, 8], ""⟩ 5 false [8, 0, 0, 0, 17, 112, 0, 5] ⟨[8, 8, 8, 8], ""⟩ :=
    ⟨⟨rfl, _, rfl, rfl⟩, rfl, rfl⟩
  ⟨hrecv, rfl, ping_other_type _ _ _ _ _ _ _ hrecv rfl (by decide)⟩

/-- C4: when `ping` has received a datagram that parses to a message of the
family's Echo Reply type with an Echo body whose ID is not `pid & 0xffff` or
whose Seq is not the input sequence, it returns false and the one line it
prints is the "wrong ID/seq" line carrying the observed ID and Seq. -/
theorem ping_wrong_id_seq (sys : Sys) (dst : Addr) (seq : Int) (isIPv6 : Bool)
    (datagram : List Nat) (peer : Addr) (m : Message) (e : Echo)
    (hrecv : Received sys dst seq isIPv6 datagram peer)
    (hparse : parsedReply sys isIPv6 datagram = .ok m)
    (htype : m.Type_ = echoReplyType isIPv6)
    (hbody : m.Body = some (.echo e))
    (hne : e.ID ≠ ((sys.Getpid &&& 0xffff : Nat) : Int) ∨ e.Seq ≠ seq) :
    (ping sys dst seq isIPv6).1 = false ∧
      printed (ping sys dst seq isIPv6).2 = [.wrongIdSeq seq dst e.ID e.Seq peer] := by
  obtain ⟨pre, hpre, h⟩ := ping_of_received sys dst seq isIPv6 datagram peer m hrecv hparse
  have hc : ¬ (e.ID = ((sys.Getpid &&& 0xffff : Nat) : Int) ∧ e.Seq = seq) := by
    rintro ⟨h1, h2⟩
    rcases hne with h | h
    · exact h h1
    · exact h h2
  rw [h]
  simp only [htype, ne_eq, not_true_eq_false, if_false, hbody, hc]
  constructor <;> simp [printed_append, hpre, printed]

theorem ping_wrong_id_seq_witness :
    Received (replySys 70000 [129, 0, 0, 0, 17, 112, 0, 4] ⟨[0, 0, 0, 0, 0, 0, 0, 0, 0, 0, 0, 0, 0, 0, 0, 1], ""⟩)
        ⟨[0, 0, 0, 0, 0, 0, 0, 0, 0, 0, 0, 0, 0, 0, 0, 1], ""⟩ 5 true [129, 0, 0, 0, 17, 112, 0, 4]
        ⟨[0, 0, 0, 0, 0, 0, 0, 0, 0, 0, 0, 0, 0, 0, 0, 1], ""⟩ ∧
      (ping (replySys 70000 [129, 0, 0, 0, 17, 112, 0, 4] ⟨[0, 0, 0, 0, 0, 0, 0, 0, 0, 0, 0, 0, 0, 0, 0, 1], ""⟩)
          ⟨[0, 0, 0, 0, 0, 0, 0, 0, 0, 0, 0, 0, 0, 0, 0, 1], ""⟩ 5 true).1 = false ∧
      printed (ping (replySys 70000 [129, 0, 0, 0, 17, 112, 0, 4] ⟨[0, 0, 0, 0, 0, 0, 0, 0, 0, 0, 0, 0, 0, 0, 0, 1], ""⟩)
          ⟨[0, 0, 0, 0, 0, 0, 0, 0, 0, 0, 0, 0, 0, 0, 0, 1], ""⟩ 5 true).2 =
        [.wrongIdSeq 5 ⟨[0, 0, 0, 0, 0, 0, 0, 0, 0, 0, 0, 0, 0, 0, 0, 1], ""⟩ 4464 4
          ⟨[0, 0, 0, 0, 0, 0, 0, 0, 0, 0, 0, 0, 0, 0, 0, 1], ""⟩] :=
  have hrecv : Received
      (replySys 70000 [129, 0, 0, 0, 17, 112, 0, 4] ⟨[0, 0, 0, 0, 0, 0, 0, 0, 0, 0, 0, 0, 0, 0, 0, 1], ""⟩)
      ⟨[0, 0, 0, 0, 0, 0, 0, 0, 0, 0, 0, 0, 0, 0, 0, 1], ""⟩ 5 true [129, 0, 0, 0, 17, 112, 0, 4]
      ⟨[0, 0, 0, 0, 0, 0, 0, 0, 0, 0, 0, 0, 0, 0, 0, 1], ""⟩ :=
    ⟨⟨rfl, _, rfl, rfl⟩, rfl, rfl⟩
  ⟨hrecv, ping_wrong_id_seq _ _ _ _ _ _
    { Type_ := .v6 129, Code := 0, Checksum := 0,
      Body := some (.echo { ID := 4464, Seq := 4, Data := [] }) }
    { ID := 4464, Seq := 4, Data := [] } hrecv rfl rfl rfl (Or.inr (by decide))⟩

/-! ## The read deadline -/

/-- C9, the claim as stated fails: with the clock reading 0 ns before the write
and 1000 ns after it, the write succeeds and the one deadline set is
3000001000 ns, which is not the start timestamp plus 3 seconds. -/
theorem deadline_not_start_plus_three :
    Written (replySys 70000 [] ⟨[8, 8, 8, 8], ""⟩) ⟨[8, 8, 8, 8], ""⟩ 1 false ∧
      (replySys 70000 [] ⟨[8, 8, 8, 8], ""⟩).Now 0 + 3 * Second = 3000000000 ∧
      deadlines (ping (replySys 70000 [] ⟨[8, 8, 8, 8], ""⟩) ⟨[8, 8, 8, 8], ""⟩ 1 false).2 =
        [3000001000] ∧
      deadlines (ping (replySys 70000 [] ⟨[8, 8, 8, 8], ""⟩) ⟨[8, 8, 8, 8], ""⟩ 1 false).2 ≠
        [(replySys 70000 [] ⟨[8, 8, 8, 8], ""⟩).Now 0 + 3 * Second] :=
  ⟨⟨rfl, _, rfl, rfl⟩, by decide, by decide, by decide⟩

/-- C9, amended: in every execution of `ping` in which the write succeeds,
exactly one read deadline is set and it is the clock reading taken after the
write (`Now 1`, a second reading, not the start timestamp `Now 0`) plus 3
seconds; it is the start timestamp plus 3 seconds only when the two readings
coincide, and it is at least that when the clock does not run backwards. -/
theorem deadline_is_second_reading_plus_three (sys : Sys) (dst : Addr) (seq : Int)
    (isIPv6 : Bool) (hw : Written sys dst seq isIPv6) :
    deadlines (ping sys dst seq isIPv6).2 = [sys.Now 1 + 3 * Second] ∧
      (deadlines (ping sys dst seq isIPv6).2 = [sys.Now 0 + 3 * Second] ↔
        sys.Now 1 = sys.Now 0) ∧
      (sys.Now 0 ≤ sys.Now 1 →
        ∀ t ∈ deadlines (ping sys dst seq isIPv6).2, sys.Now 0 + 3 * Second ≤ t) := by
  obtain ⟨hl, b, hm, hwr⟩ := hw
  have key : deadlines (ping sys dst seq isIPv6).2 = [sys.Now 1 + 3 * Second] := by
    unfold echoRequestType at hm
    simp only [ping, pingBody, hl, hm, hwr]
    cases isIPv6 <;> (repeat' split) <;> simp [deadlines]
  rw [key]
  refine ⟨rfl, ?_, ?_⟩
  · simp
  · intro h t ht
    simp only [List.mem_singleton] at ht
    subst ht
    omega

theorem deadline_is_second_reading_plus_three_witness :
    Written (replySys 70000 [] ⟨[8, 8, 8, 8], ""⟩) ⟨[8, 8, 8, 8], ""⟩ 1 false ∧
      deadlines (ping (replySys 70000 [] ⟨[8, 8, 8, 8], ""⟩) ⟨[8, 8, 8, 8], ""⟩ 1 false).2 =
        [(replySys 70000 [] ⟨[8, 8, 8, 8], ""⟩).Now 1 + 3 * Second] :=
  have hw : Written (replySys 70000 [] ⟨[8, 8, 8, 8], ""⟩) ⟨[8, 8, 8, 8], ""⟩ 1 false :=
    ⟨rfl, _, rfl, rfl⟩
  ⟨hw, (deadline_is_second_reading_plus_three _ _ _ _ hw).1⟩

/-! ## The socket is scoped to one call -/

theorem openSockets_append (a b : List Event) :
    openSockets (a ++ b) = openSockets a + openSockets b := by
  simp [openSockets]

theorem openSockets_of_zero (l : List Event) (h : ∀ e ∈ l, socketDelta e = 0) :
    openSockets l = 0 := by
  induction l with
  | nil => rfl
  | cons e l ih =>
    have h1 := h e (List.mem_cons_self e l)
    have h2 := ih (fun x hx => h x (List.mem_cons_of_mem e hx))
    simp only [openSockets, List.map_cons, List.sum_cons] at h2 ⊢
    omega

theorem openSockets_take_of_zero (l : List Event) (h : ∀ e ∈ l, socketDelta e = 0) (n : Nat) :
    openSockets (l.take n) = 0 :=
  openSockets_of_zero _ (fun e he => h e (List.mem_of_mem_take he))

theorem scoped_of_zero (l : List Event) (h : ∀ e ∈ l, socketDelta e = 0) : Scoped l := by
  refine ⟨openSockets_of_zero l h, fun n => ?_⟩
  have := openSockets_take_of_zero l h n
  exact ⟨⟨by omega, by omega⟩, fun _ _ _ => this⟩

theorem scoped_append (a b : List Event) (ha : Scoped a) (hb : Scoped b) :
    Scoped (a ++ b) := by
  obtain ⟨ha0, ha⟩ := ha
  obtain ⟨hb0, hb⟩ := hb
  refine ⟨by rw [openSockets_append, ha0, hb0]; rfl, fun n => ?_⟩
  rw [List.take_append_eq_append_take, openSockets_append]
  by_cases hn : n < a.length
  · have hz : n - a.length = 0 := by omega
    have h1 : openSockets (List.take (n - a.length) b) = 0 := by rw [hz]; rfl
    rw [h1, add_zero]
    refine ⟨(ha n).1, fun e he ho => (ha n).2 e ?_ ho⟩
    rw [List.getElem?_append_left hn] at he
    exact he
  · have hn : a.length ≤ n := by omega
    rw [List.take_of_length_le hn, ha0, zero_add]
    refine ⟨(hb _).1, fun e he ho => (hb _).2 e ?_ ho⟩
    rw [List.getElem?_append_right hn] at he
    exact he

theorem scoped_bracket (network address : String) (mid : List Event)
    (h : ∀ e ∈ mid, socketDelta e = 0 ∧ outsidePing e = false) :
    Scoped (.listenPacket network address true :: (mid ++ [.close])) := by
  have hz : ∀ e ∈ mid, socketDelta e = 0 := fun e he => (h e he).1
  have hmid : openSockets mid = 0 := openSockets_of_zero mid hz
  have hcons : ∀ l : List Event,
      openSockets (.listenPacket network address true :: l) = 1 + openSockets l := by
    intro l; simp [openSockets, socketDelta]
  refine ⟨?_, fun n => ?_⟩
  · rw [hcons, openSockets_append, hmid]; rfl
  · cases n with
    | zero =>
      refine ⟨⟨by simp [openSockets], by simp [openSockets]⟩, fun e he ho => ?_⟩
      simp [openSockets]
    | succ k =>
      rw [List.take_succ_cons, hcons, List.take_append_eq_append_take, openSockets_append,
        openSockets_take_of_zero mid hz]
      have hc : openSockets (List.take (k - mid.length) [Event.close]) = 0 ∨
          openSockets (List.take (k - mid.length) [Event.close]) = -1 := by
        cases k - mid.length with
        | zero => left; rfl
        | succ j => right; simp [openSockets, socketDelta]
      refine ⟨⟨by omega, by omega⟩, fun e he ho => ?_⟩
      exfalso
      rw [List.getElem?_cons_succ] at he
      have hmem : e ∈ mid ++ [Event.close] := List.getElem?_mem he
      rcases List.mem_append.1 hmem with hm | hm
      · rw [(h e hm).2] at ho; exact Bool.noConfusion ho
      · simp only [List.mem_singleton] at hm
        subst hm
        exact Bool.noConfusion ho

theorem pingBody_events (sys : Sys) (dst : Addr) (seq : Int) (isIPv6 : Bool)
    (icmpType : ICMPType) (protocol : String) :
    ∀ e ∈ (pingBody sys dst seq isIPv6 icmpType protocol).2,
      socketDelta e = 0 ∧ outsidePing e = false := by
  unfold pingBody
  simp only
  (repeat' split) <;>
    simp [socketDelta, outsidePing]

theorem ping_events (sys : Sys) (dst : Addr) (seq : Int) (isIPv6 : Bool) :
    match sys.ListenPacket (if isIPv6 then "ip6:ipv6-icmp" else "ip4:icmp")
        (if isIPv6 then "::" else "0.0.0.0") with
    | none =>
      ∃ mid : List Event,
        (ping sys dst seq isIPv6).2 =
          .listenPacket (if isIPv6 then "ip6:ipv6-icmp" else "ip4:icmp")
            (if isIPv6 then "::" else "0.0.0.0") true :: (mid ++ [.close]) ∧
        ∀ e ∈ mid, socketDelta e = 0 ∧ outsidePing e = false
    | some _ =>
      ∀ e ∈ (ping sys dst seq isIPv6).2, socketDelta e = 0 ∧ outsidePing e = false := by
  unfold ping
  simp only
  cases sys.ListenPacket (if isIPv6 then "ip6:ipv6-icmp" else "ip4:icmp")
      (if isIPv6 then "::" else "0.0.0.0") with
  | none => exact ⟨_, rfl, pingBody_events _ _ _ _ _ _⟩
  | some err =>
    intro e he
    simp only [List.mem_cons, List.mem_singleton, List.not_mem_nil, or_false] at he
    rcases he with rfl | rfl <;> exact ⟨rfl, rfl⟩

theorem ping_scoped (sys : Sys) (dst : Addr) (seq : Int) (isIPv6 : Bool) :
    Scoped (ping sys dst seq isIPv6).2 := by
  have h := ping_events sys dst seq isIPv6
  split at h
  · obtain ⟨mid, hmid, hz⟩ := h
    rw [hmid]
    exact scoped_bracket _ _ mid hz
  · exact scoped_of_zero _ (fun e he => (h e he).1)

theorem loopRun_scoped (env : Host) (host : String) (dst : Addr) (isIPv6 : Bool) (n : Nat) :
    Scoped (loopRun env host dst isIPv6 n).events := by
  induction n with
  | zero => exact scoped_of_zero _ (fun e he => absurd he (List.not_mem_nil e))
  | succ n ih =>
    simp only [loopRun, loopStep]
    split_ifs
    · exact ih
    · refine scoped_append _ _ (scoped_append _ _ ih ?_) (scoped_of_zero _ ?_)
      · exact scoped_append [_] _ (scoped_of_zero _ (by simp [socketDelta])) (ping_scoped _ _ _ _)
      · simp [socketDelta]
    · refine scoped_append _ _ (scoped_append _ _ ih ?_) (scoped_of_zero _ ?_)
      · exact scoped_append [_] _ (scoped_of_zero _ (by simp [socketDelta])) (ping_scoped _ _ _ _)
      · simp [socketDelta]

theorem resolve_events_zero (env : Host) (host : String) :
    ∀ e ∈ (resolve env host).events, socketDelta e = 0 := by
  unfold resolve
  split
  · simp only
    split_ifs <;> simp [socketDelta]
  · (repeat' split) <;> simp [socketDelta]

theorem main_scoped (env : Host) (args : List String) (fuel : Nat) :
    Scoped (main env args fuel).1 := by
  unfold main
  split_ifs
  · exact scoped_of_zero _ (by simp [socketDelta])
  · simp only
    split
    · refine scoped_append _ _ (scoped_of_zero _ ?_) (scoped_of_zero _ (by simp [socketDelta]))
      intro e he
      rcases List.mem_cons.1 he with rfl | he
      · rfl
      · exact resolve_events_zero env _ e he
    · refine scoped_append _ _ (scoped_of_zero _ ?_) (loopRun_scoped _ _ _ _ _)
      intro e he
      simp only [List.mem_append, List.mem_cons, List.mem_singleton, List.not_mem_nil,
        or_false] at he
      rcases he with (((rfl | he) | he) | rfl)
      · rfl
      · exact resolve_events_zero env _ e he
      · split_ifs at he
        · simp only [List.mem_singleton] at he
          subst he; rfl
        · exact absurd he (List.not_mem_nil e)
      · rfl

/-- C10: a call of `ping` that opens the socket closes it exactly once, as its
last event, whatever path the body takes; a call in which opening fails closes
nothing; hence along every run of `main` at most one ICMP socket is open at
any point, none is open whenever `main` itself acts between two calls, and
none is open at the end of the trace. -/
theorem socket_closed_exactly_once (sys : Sys) (dst : Addr) (seq : Int) (isIPv6 : Bool)
    (env : Host) (args : List String) (fuel : Nat) :
    (match sys.ListenPacket (if isIPv6 then "ip6:ipv6-icmp" else "ip4:icmp")
        (if isIPv6 then "::" else "0.0.0.0") with
      | none =>
        (ping sys dst seq isIPv6).2.count .close = 1 ∧
          (ping sys dst seq isIPv6).2.getLast? = some .close ∧
          (ping sys dst seq isIPv6).2.head? =
            some (.listenPacket (if isIPv6 then "ip6:ipv6-icmp" else "ip4:icmp")
              (if isIPv6 then "::" else "0.0.0.0") true) ∧
          openSockets (ping sys dst seq isIPv6).2.dropLast = 1
      | some _ =>
        (ping sys dst seq isIPv6).2.count .close = 0 ∧
          ∀ e ∈ (ping sys dst seq isIPv6).2, socketDelta e = 0) ∧
      Scoped (ping sys dst seq isIPv6).2 ∧
      Scoped (main env args fuel).1 := by
  refine ⟨?_, ping_scoped _ _ _ _, main_scoped _ _ _⟩
  have h := ping_events sys dst seq isIPv6
  split
  · rename_i heq
    rw [heq] at h
    obtain ⟨mid, hmid, hz⟩ := h
    have hnc : List.count Event.close mid = 0 := by
      rw [List.count_eq_zero]
      intro hc
      have := (hz _ hc).1
      simp [socketDelta] at this
    rw [hmid]
    refine ⟨?_, ?_, rfl, ?_⟩
    · rw [List.count_cons, List.count_append, hnc]
      simp
    · rw [← List.cons_append, List.getLast?_append]
      simp
    · rw [← List.cons_append, List.dropLast_concat]
      have : openSockets mid = 0 := openSockets_of_zero mid (fun e he => (hz e he).1)
      simp only [openSockets, List.map_cons, List.sum_cons] at this ⊢
      rw [this]; rfl
  · rename_i err heq
    rw [heq] at h
    refine ⟨?_, fun e he => (h e he).1⟩
    rw [List.count_eq_zero]
    intro hc
    have := (h _ hc).1
    simp [socketDelta] at this

/-! ## Marshalling the request and parsing it back -/

theorem getUint16_putUint16 (v : Nat) (h : v < 65536) :
    getUint16 (v / 256 % 256) (v % 256) = v := by
  unfold getUint16
  omega

theorem uint16_lt (x : Int) : uint16 x < 65536 := by
  unfold uint16
  omega

theorem uint16_pid (pid : Nat) : uint16 ((pid &&& 0xffff : Nat) : Int) = pid &&& 0xffff := by
  have h : pid &&& 0xffff ≤ 0xffff := Nat.and_le_right
  unfold uint16
  omega

theorem marshal_echo (pid : Nat) (seq : Int) (isIPv6 reply : Bool) :
    ∃ c0 c1,
      (echoRequest pid seq
          (if reply then echoReplyType isIPv6 else echoRequestType isIPv6)).Marshal =
        .ok ((if isIPv6 then (if reply then 129 else 128) else (if reply then 0 else 8)) ::
          0 :: c0 :: c1 ::
          (pid &&& 0xffff) / 256 % 256 :: (pid &&& 0xffff) % 256 ::
          uint16 seq / 256 % 256 :: uint16 seq % 256 :: payload) := by
  have h3 := uint16_pid pid
  cases isIPv6 <;> cases reply <;>
    simp only [Message.Marshal, echoRequest, echoRequestType, echoReplyType, Echo.Marshal,
      putUint16, h3, ipv4.ICMPTypeEcho, ipv4.ICMPTypeEchoReply, ipv6.ICMPTypeEchoRequest,
      ipv6.ICMPTypeEchoReply] <;>
    exact ⟨_, _, rfl⟩

theorem parse_echo_bytes (parseOther : ICMPType → List Nat → Except Error MessageBody)
    (isIPv6 reply : Bool) (c0 c1 i0 i1 s0 s1 : Nat) (data : List Nat) :
    ParseMessage parseOther (if isIPv6 then 58 else 1)
        ((if isIPv6 then (if reply then 129 else 128) else (if reply then 0 else 8)) ::
          0 :: c0 :: c1 :: i0 :: i1 :: s0 :: s1 :: data) =
      .ok { Type_ := if reply then echoReplyType isIPv6 else echoRequestType isIPv6,
            Code := 0, Checksum := getUint16 c0 c1,
            Body := some (.echo { ID := getUint16 i0 i1, Seq := getUint16 s0 s1,
                                  Data := data }) } := by
  cases isIPv6 <;> cases reply <;>
    simp [ParseMessage, parseEcho, echoRequestType, echoReplyType, ipv4.ICMPTypeEcho,
      ipv4.ICMPTypeEchoReply, ipv6.ICMPTypeEchoRequest, ipv6.ICMPTypeEchoReply]

theorem marshal_parse (parseOther : ICMPType → List Nat → Except Error MessageBody)
    (pid : Nat) (seq : Int) (isIPv6 reply : Bool) :
    ∃ b m,
      (echoRequest pid seq
          (if reply then echoReplyType isIPv6 else echoRequestType isIPv6)).Marshal = .ok b ∧
      ParseMessage parseOther (if isIPv6 then 58 else 1) b = .ok m ∧
      m.Type_ = (if reply then echoReplyType isIPv6 else echoRequestType isIPv6) ∧
      m.Body = some (.echo { ID := (pid &&& 0xffff : Nat),
                             Seq := (uint16 seq : Nat), Data := payload }) := by
  have h1 := getUint16_putUint16 (uint16 seq) (uint16_lt seq)
  have h2 := getUint16_putUint16 (pid &&& 0xffff) (by
    have h : pid &&& 0xffff ≤ 0xffff := Nat.and_le_right
    omega)
  obtain ⟨c0, c1, hm⟩ := marshal_echo pid seq isIPv6 reply
  refine ⟨_, _, hm, parse_echo_bytes parseOther isIPv6 reply _ _ _ _ _ _ _, rfl, ?_⟩
  simp only [h1, h2]

theorem uint16_eq_iff (seq : Int) : ((uint16 seq : Nat) : Int) = seq ↔ 0 ≤ seq ∧ seq < 65536 := by
  unfold uint16
  omega

/-- The request of `ping` survives marshalling and parsing exactly when the
sequence fits the 16-bit field: the parsed body carries `pid & 0xffff` and the
sequence reduced modulo 65536. -/
theorem roundtrip_mod (parseOther : ICMPType → List Nat → Except Error MessageBody)
    (pid : Nat) (seq : Int) (isIPv6 : Bool) :
    ∃ b m e,
      (echoRequest pid seq (echoRequestType isIPv6)).Marshal = .ok b ∧
      ParseMessage parseOther (if isIPv6 then 58 else 1) b = .ok m ∧
      m.Body = some (.echo e) ∧ e.ID = ((pid &&& 0xffff : Nat) : Int) ∧
      e.Seq = seq % 65536 ∧ (e.Seq = seq ↔ 0 ≤ seq ∧ seq < 65536) := by
  obtain ⟨b, m, hm, hp, -, hb⟩ := marshal_parse parseOther pid seq isIPv6 false
  refine ⟨b, m, _, hm, hp, hb, rfl, ?_, uint16_eq_iff seq⟩
  show ((uint16 seq : Nat) : Int) = seq % 65536
  unfold uint16
  omega

theorem received_echoingSys (pid : Nat) (seq : Int) (isIPv6 : Bool) (peer dst : Addr) :
    Received (echoingSys pid seq isIPv6 peer) dst seq isIPv6 (echoOf pid seq isIPv6) peer := by
  obtain ⟨b, m, hm, -⟩ := marshal_parse parseRawBody pid seq isIPv6 false
  exact ⟨⟨rfl, b, hm, rfl⟩, rfl, rfl⟩

theorem echoOf_length (pid : Nat) (seq : Int) (isIPv6 : Bool) :
    (echoOf pid seq isIPv6).take 1500 = echoOf pid seq isIPv6 := by
  obtain ⟨c0, c1, hm⟩ := marshal_echo pid seq isIPv6 true
  simp only [if_true] at hm
  unfold echoOf
  rw [hm]
  apply List.take_of_length_le
  simp [payload]

/-- Against a responder that echoes the request back, `ping` succeeds exactly
when the sequence fits the 16-bit field of the wire format. -/
theorem ping_echoingSys (pid : Nat) (seq : Int) (isIPv6 : Bool) (peer dst : Addr) :
    (ping (echoingSys pid seq isIPv6 peer) dst seq isIPv6).1 = true ↔
      0 ≤ seq ∧ seq < 65536 := by
  obtain ⟨b, m, hm, hp, ht, hb⟩ := marshal_parse parseRawBody pid seq isIPv6 true
  simp only [if_true] at hm hp ht
  have hecho : echoOf pid seq isIPv6 = b := by
    unfold echoOf; rw [hm]
  have hparse : parsedReply (echoingSys pid seq isIPv6 peer) isIPv6 (echoOf pid seq isIPv6) =
      .ok m := by
    unfold parsedReply
    rw [echoOf_length, hecho]
    exact hp
  have h := (ping_success_iff_aux (echoingSys pid seq isIPv6 peer) dst seq isIPv6 _ peer m
    (received_echoingSys pid seq isIPv6 peer dst) hparse)
  rw [h]
  constructor
  · rintro ⟨-, e, he, -, hseq⟩
    rw [hb] at he
    simp only [Option.some.injEq, MessageBody.echo.injEq] at he
    subst he
    exact (uint16_eq_iff seq).1 hseq
  · intro hr
    exact ⟨ht, _, hb, rfl, (uint16_eq_iff seq).2 hr⟩

/-- C2, at sequence 65536 (the call after 65535 failed attempts) with process
id 70000: the request marshals, and parsing the bytes back gives an Echo body
with ID 4464 = 70000 & 0xffff but Seq 0, not 65536, in both families; so
`ping` against a responder that echoes the request back prints the "wrong
ID/seq" line with seq=0 and returns false. -/
theorem roundtrip_loses_sequence_65536 :
    (∃ b m, (echoRequest 70000 65536 ipv4.ICMPTypeEcho).Marshal = .ok b ∧
        ParseMessage parseRawBody 1 b = .ok m ∧
        m.Body = some (.echo { ID := 4464, Seq := 0, Data := payload })) ∧
      (∃ b m, (echoRequest 70000 65536 ipv6.ICMPTypeEchoRequest).Marshal = .ok b ∧
        ParseMessage parseRawBody 58 b = .ok m ∧
        m.Body = some (.echo { ID := 4464, Seq := 0, Data := payload })) ∧
      (ping (echoingSys 70000 65536 false ⟨[8, 8, 8, 8], ""⟩) ⟨[8, 8, 8, 8], ""⟩ 65536 false).1 =
        false ∧
      printed
          (ping (echoingSys 70000 65536 false ⟨[8, 8, 8, 8], ""⟩) ⟨[8, 8, 8, 8], ""⟩ 65536
            false).2 =
        [.wrongIdSeq 65536 ⟨[8, 8, 8, 8], ""⟩ 4464 0 ⟨[8, 8, 8, 8], ""⟩] :=
  ⟨⟨_, _, rfl, rfl, rfl⟩, ⟨_, _, rfl, rfl, rfl⟩, by decide, by decide⟩

/-! ## The resolver -/

theorem To4_IPv4 (a b c d : Nat) : To4 (IPv4 a b c d) = some [a, b, c, d] := by
  simp [To4, IPv4]

theorem To4_eq_none_iff (ip : IP) (hlen : ip.length = 16) :
    To4 ip = none ↔ ip.take 12 ≠ [0, 0, 0, 0, 0, 0, 0, 0, 0, 0, 0xff, 0xff] := by
  have h12 : ip.take 12 = ip.take 10 ++ (ip.drop 10).take 2 := List.take_add ip 10 2
  have hl : (ip.take 10).length = 10 := by simp [hlen]
  unfold To4
  rw [h12]
  constructor
  · intro h habs
    have h1 : ip.take 10 = List.replicate 10 0 ∧ (ip.drop 10).take 2 = [0xff, 0xff] := by
      have habs2 : ip.take 10 ++ (ip.drop 10).take 2 =
          [0, 0, 0, 0, 0, 0, 0, 0, 0, 0] ++ [0xff, 0xff] := habs
      have := List.append_inj habs2 (by rw [hl]; rfl)
      exact ⟨this.1, this.2⟩
    rw [if_neg (by omega), if_pos ⟨hlen, h1⟩] at h
    exact Option.noConfusion h
  · intro h
    have : ¬ (ip.take 10 = List.replicate 10 0 ∧ (ip.drop 10).take 2 = [0xff, 0xff]) := by
      rintro ⟨h1, h2⟩
      apply h
      rw [h1, h2]
      rfl
    rw [if_neg (by omega), if_neg (fun hc => this hc.2)]

/-- C5: when `net.ParseIP` reads the host as the IPv4 address a.b.c.d (which it
returns in the 16-byte form of `net.IPv4`), the resolution step leaves
`isIPv6` false and `isHostname` false and makes exactly one look-up, with
network "ip4", whose result is the result of the step. -/
theorem resolve_ipv4_literal (env : Host) (host : String) (a b c d : Nat)
    (hparse : env.ParseIP host = some (IPv4 a b c d)) :
    (resolve env host).isIPv6 = false ∧ (resolve env host).isHostname = false ∧
      (resolve env host).events = [.resolveIPAddr "ip4" host] ∧
      (resolve env host).result = env.ResolveIPAddr "ip4" host := by
  simp [resolve, hparse, To4_IPv4]

theorem resolve_ipv4_literal_witness :
    (echoingHost 70000 (fun s => if s = "8.8.8.8" then some (IPv4 8 8 8 8) else none)
        (fun _ _ => .ok ⟨[8, 8, 8, 8], ""⟩) false ⟨[8, 8, 8, 8], ""⟩).ParseIP "8.8.8.8" =
        some (IPv4 8 8 8 8) ∧
      (resolve (echoingHost 70000 (fun s => if s = "8.8.8.8" then some (IPv4 8 8 8 8) else none)
        (fun _ _ => .ok ⟨[8, 8, 8, 8], ""⟩) false ⟨[8, 8, 8, 8], ""⟩) "8.8.8.8").isIPv6 = false ∧
      (resolve (echoingHost 70000 (fun s => if s = "8.8.8.8" then some (IPv4 8 8 8 8) else none)
        (fun _ _ => .ok ⟨[8, 8, 8, 8], ""⟩) false ⟨[8, 8, 8, 8], ""⟩) "8.8.8.8").isHostname =
        false :=
  have h := resolve_ipv4_literal
    (echoingHost 70000 (fun s => if s = "8.8.8.8" then some (IPv4 8 8 8 8) else none)
      (fun _ _ => .ok ⟨[8, 8, 8, 8], ""⟩) false ⟨[8, 8, 8, 8], ""⟩) "8.8.8.8" 8 8 8 8 (by decide)
  ⟨by decide, h.1, h.2.1⟩

/-- C6, the claim as stated fails: `net.ParseIP` reads the IPv6 literal
"::ffff:8.8.8.8" as the bytes 0 (ten times), ff, ff, 8, 8, 8, 8, which have a
4-byte form; the resolution step leaves `isIPv6` false and looks the host up
with network "ip4". -/
theorem mapped_literal_selects_ipv4 :
    (resolve (echoingHost 70000
        (fun s => if s = "::ffff:8.8.8.8" then
          some [0, 0, 0, 0, 0, 0, 0, 0, 0, 0, 0xff, 0xff, 8, 8, 8, 8] else none)
        (fun _ _ => .ok ⟨[8, 8, 8, 8], ""⟩) false ⟨[8, 8, 8, 8], ""⟩) "::ffff:8.8.8.8").isIPv6 =
        false ∧
      (resolve (echoingHost 70000
        (fun s => if s = "::ffff:8.8.8.8" then
          some [0, 0, 0, 0, 0, 0, 0, 0, 0, 0, 0xff, 0xff, 8, 8, 8, 8] else none)
        (fun _ _ => .ok ⟨[8, 8, 8, 8], ""⟩) false ⟨[8, 8, 8, 8], ""⟩) "::ffff:8.8.8.8").events =
        [.resolveIPAddr "ip4" "::ffff:8.8.8.8"] := by
  constructor <;> decide

/-- C6, amended: when `net.ParseIP` reads the host as a 16-byte address, the
resolution step selects IPv6 (`isIPv6` true, one look-up with network "ip6")
exactly when the address is not IPv4-mapped, that is when its first twelve
bytes are not ten zeros followed by ff ff; an IPv4-mapped literal gets `isIPv6`
false and one look-up with network "ip4".  `isHostname` stays false. -/
theorem resolve_ipv6_literal (env : Host) (host : String) (ip : IP)
    (hparse : env.ParseIP host = some ip) (hlen : ip.length = 16) :
    ((resolve env host).isIPv6 = true ↔
        ip.take 12 ≠ [0, 0, 0, 0, 0, 0, 0, 0, 0, 0, 0xff, 0xff]) ∧
      (ip.take 12 ≠ [0, 0, 0, 0, 0, 0, 0, 0, 0, 0, 0xff, 0xff] →
        (resolve env host).events = [.resolveIPAddr "ip6" host] ∧
          (resolve env host).result = env.ResolveIPAddr "ip6" host) ∧
      (ip.take 12 = [0, 0, 0, 0, 0, 0, 0, 0, 0, 0, 0xff, 0xff] →
        (resolve env host).events = [.resolveIPAddr "ip4" host] ∧
          (resolve env host).result = env.ResolveIPAddr "ip4" host) ∧
      (resolve env host).isHostname = false := by
  have h := To4_eq_none_iff ip hlen
  by_cases hm : ip.take 12 = [0, 0, 0, 0, 0, 0, 0, 0, 0, 0, 0xff, 0xff]
  · have hn : ¬ To4 ip = none := fun hc => (h.1 hc) hm
    simp [resolve, hparse, hm, hn]
  · have hn : To4 ip = none := h.2 hm
    simp [resolve, hparse, hm, hn]

theorem resolve_ipv6_literal_witness :
    (resolve (echoingHost 70000
        (fun s => if s = "2001:4860:4860::8888" then
          some [0x20, 0x01, 0x48, 0x60, 0x48, 0x60, 0, 0, 0, 0, 0, 0, 0, 0, 0x88, 0x88]
          else none)
        (fun _ _ => .ok ⟨[0x20, 0x01, 0x48, 0x60, 0x48, 0x60, 0, 0, 0, 0, 0, 0, 0, 0, 0x88, 0x88],
          ""⟩) true ⟨[], ""⟩) "2001:4860:4860::8888").isIPv6 = true :=
  ((resolve_ipv6_literal
    (echoingHost 70000
        (fun s => if s = "2001:4860:4860::8888" then
          some [0x20, 0x01, 0x48, 0x60, 0x48, 0x60, 0, 0, 0, 0, 0, 0, 0, 0, 0x88, 0x88]
          else none)
        (fun _ _ => .ok ⟨[0x20, 0x01, 0x48, 0x60, 0x48, 0x60, 0, 0, 0, 0, 0, 0, 0, 0, 0x88, 0x88],
          ""⟩) true ⟨[], ""⟩)
    "2001:4860:4860::8888"
    [0x20, 0x01, 0x48, 0x60, 0x48, 0x60, 0, 0, 0, 0, 0, 0, 0, 0, 0x88, 0x88]
    (by decide) (by decide)).1).2 (by decide)

/-- C7: when `net.ParseIP` rejects the host, `isHostname` is true and the IPv4
look-up is made first; if it succeeds its address is the target, the family
is IPv4 and it is the only look-up; if it fails and the IPv6 look-up succeeds,
that address is the target and the family is IPv6; if both fail, the error of
the IPv6 look-up is the one reported and `main` exits with code 1 after
printing it, without any call of `ping` and without opening a socket. -/
theorem resolve_hostname (env : Host) (host : String) (hparse : env.ParseIP host = none) :
    (resolve env host).isHostname = true ∧
      (resolve env host).events.head? = some (.resolveIPAddr "ip4" host) ∧
      (∀ dst, env.ResolveIPAddr "ip4" host = .ok dst →
        (resolve env host).result = .ok dst ∧ (resolve env host).isIPv6 = false ∧
          (resolve env host).events = [.resolveIPAddr "ip4" host]) ∧
      (∀ e4 dst, env.ResolveIPAddr "ip4" host = .error e4 →
        env.ResolveIPAddr "ip6" host = .ok dst →
        (resolve env host).result = .ok dst ∧ (resolve env host).isIPv6 = true ∧
          (resolve env host).events = [.resolveIPAddr "ip4" host, .resolveIPAddr "ip6" host]) ∧
      (∀ e4 e6, env.ResolveIPAddr "ip4" host = .error e4 →
        env.ResolveIPAddr "ip6" host = .error e6 →
        (resolve env host).result = .error e6 ∧
          (resolve env host).events = [.resolveIPAddr "ip4" host, .resolveIPAddr "ip6" host] ∧
          ∀ prog fuel, main env [prog, host] fuel =
            ([.print (.watching host), .resolveIPAddr "ip4" host, .resolveIPAddr "ip6" host,
              .print (.resolveError host e6)], some 1) ∧
            pingSeqs (main env [prog, host] fuel).1 = []) := by
  refine ⟨?_, ?_, ?_, ?_, ?_⟩
  · unfold resolve
    simp only [hparse]
    (repeat' split) <;> rfl
  · unfold resolve
    simp only [hparse]
    (repeat' split) <;> rfl
  · intro dst h4
    simp [resolve, hparse, h4]
  · intro e4 dst h4 h6
    simp [resolve, hparse, h4, h6]
  · intro e4 e6 h4 h6
    have hr : resolve env host =
        { isIPv6 := false, isHostname := true, result := .error e6,
          events := [.resolveIPAddr "ip4" host, .resolveIPAddr "ip6" host] } := by
      simp [resolve, hparse, h4, h6]
    refine ⟨by rw [hr], by rw [hr], fun prog fuel => ?_⟩
    have hm : main env [prog, host] fuel =
        ([.print (.watching host), .resolveIPAddr "ip4" host, .resolveIPAddr "ip6" host,
          .print (.resolveError host e6)], some 1) := by
      simp [main, hr]
    exact ⟨hm, by rw [hm]; rfl⟩

theorem resolve_hostname_witness :
    (echoingHost 70000 (fun _ => none)
        (fun network _ => if network = "ip6" then .ok ⟨[0, 0, 0, 0, 0, 0, 0, 0, 0, 0, 0, 0, 0, 0, 0, 1], ""⟩
          else .error "no such host") true ⟨[], ""⟩).ParseIP "ip6-localhost" = none ∧
      (resolve (echoingHost 70000 (fun _ => none)
        (fun network _ => if network = "ip6" then .ok ⟨[0, 0, 0, 0, 0, 0, 0, 0, 0, 0, 0, 0, 0, 0, 0, 1], ""⟩
          else .error "no such host") true ⟨[], ""⟩) "ip6-localhost").isIPv6 = true ∧
      (resolve (echoingHost 70000 (fun _ => none)
        (fun network _ => if network = "ip6" then .ok ⟨[0, 0, 0, 0, 0, 0, 0, 0, 0, 0, 0, 0, 0, 0, 0, 1], ""⟩
          else .error "no such host") true ⟨[], ""⟩) "ip6-localhost").isHostname = true :=
  have h := resolve_hostname
    (echoingHost 70000 (fun _ => none)
        (fun network _ => if network = "ip6" then .ok ⟨[0, 0, 0, 0, 0, 0, 0, 0, 0, 0, 0, 0, 0, 0, 0, 1], ""⟩
          else .error "no such host") true ⟨[], ""⟩) "ip6-localhost" rfl
  ⟨rfl, (h.2.2.2.1 "no such host" ⟨[0, 0, 0, 0, 0, 0, 0, 0, 0, 0, 0, 0, 0, 0, 0, 1], ""⟩
    rfl rfl).2.1, h.1⟩

/-! ## The driver loop -/

theorem pingSeqs_append (a b : List Event) : pingSeqs (a ++ b) = pingSeqs a ++ pingSeqs b := by
  induction a with
  | nil => rfl
  | cons e a ih => cases e <;> simp [pingSeqs, ih]

theorem pingSeqs_of_inside (l : List Event) (h : ∀ e ∈ l, outsidePing e = false) :
    pingSeqs l = [] := by
  induction l with
  | nil => rfl
  | cons e l ih =>
    have h1 := h e (List.mem_cons_self e l)
    have h2 := ih (fun x hx => h x (List.mem_cons_of_mem e hx))
    cases e <;> simp_all [pingSeqs, outsidePing]

theorem ping_inside (sys : Sys) (dst : Addr) (seq : Int) (isIPv6 : Bool) :
    ∀ e ∈ (ping sys dst seq isIPv6).2, outsidePing e = false := by
  have h := ping_events sys dst seq isIPv6
  split at h
  · obtain ⟨mid, hmid, hz⟩ := h
    rw [hmid]
    intro e he
    simp only [List.mem_cons, List.mem_append, List.mem_singleton, List.not_mem_nil,
      or_false] at he
    rcases he with rfl | he | rfl
    · rfl
    · exact (hz e he).2
    · rfl
  · exact fun e he => (h e he).2

theorem pingSeqs_ping (sys : Sys) (dst : Addr) (seq : Int) (isIPv6 : Bool) :
    pingSeqs (ping sys dst seq isIPv6).2 = [] :=
  pingSeqs_of_inside _ (ping_inside sys dst seq isIPv6)

theorem loopRun_inv (env : Host) (host : String) (dst : Addr) (isIPv6 : Bool) (n : Nat) :
    (loopRun env host dst isIPv6 n).calls ≤ n ∧
      pingSeqs (loopRun env host dst isIPv6 n).events =
        (List.range (loopRun env host dst isIPv6 n).calls).map (fun (j : Nat) => (j : Int) + 1) ∧
      ((loopRun env host dst isIPv6 n).finished = false →
        (loopRun env host dst isIPv6 n).calls = n ∧
          (loopRun env host dst isIPv6 n).seq = (n : Int) + 1 ∧
          ∀ j, j < n → callResult env dst isIPv6 j = false) ∧
      ((loopRun env host dst isIPv6 n).finished = true →
        1 ≤ (loopRun env host dst isIPv6 n).calls ∧
          (loopRun env host dst isIPv6 n).seq = ((loopRun env host dst isIPv6 n).calls : Int) ∧
          callResult env dst isIPv6 ((loopRun env host dst isIPv6 n).calls - 1) = true ∧
          ∀ j, j < (loopRun env host dst isIPv6 n).calls - 1 →
            callResult env dst isIPv6 j = false) := by
  induction n with
  | zero =>
    refine ⟨Nat.le_refl 0, rfl, fun _ => ⟨rfl, rfl, fun j hj => absurd hj (Nat.not_lt_zero j)⟩,
      fun h => ?_⟩
    exact Bool.noConfusion h
  | succ n ih =>
    obtain ⟨hle, hseqs, hrun, hfin⟩ := ih
    rw [show loopRun env host dst isIPv6 (n + 1) =
      loopStep env host dst isIPv6 (loopRun env host dst isIPv6 n) from rfl]
    generalize loopRun env host dst isIPv6 n = s at hle hseqs hrun hfin ⊢
    obtain ⟨seq, finished, calls, events⟩ := s
    cases finished with
    | true =>
      simp only [loopStep, if_true]
      obtain ⟨h1, h2, h3, h4⟩ := hfin rfl
      exact ⟨Nat.le_succ_of_le hle, hseqs, fun h => Bool.noConfusion h, fun _ => ⟨h1, h2, h3, h4⟩⟩
    | false =>
      obtain ⟨hc, hs, hall⟩ := hrun rfl
      simp only at hc hs hseqs
      subst hc
      subst hs
      have hres : (ping (env.SysAt calls) dst ((calls : Int) + 1) isIPv6).1 =
          callResult env dst isIPv6 calls := rfl
      simp only [loopStep, Bool.false_eq_true, if_false, hres]
      cases hr : callResult env dst isIPv6 calls with
      | true =>
        simp only [if_true, pingSeqs_append, pingSeqs, pingSeqs_ping, hseqs, List.range_succ,
          List.map_append, List.map_cons, List.map_nil, List.append_nil]
        refine ⟨Nat.le_refl _, ?_, ?_, ?_⟩
        · simp
        · simp
        · intro _
          refine ⟨by omega, ?_, ?_, ?_⟩
          · push_cast; rfl
          · simpa using hr
          · intro j hj
            exact hall j (by simpa using hj)
      | false =>
        simp only [Bool.false_eq_true, if_false, pingSeqs_append, pingSeqs, pingSeqs_ping, hseqs,
          List.range_succ, List.map_append, List.map_cons, List.map_nil, List.append_nil]
        refine ⟨Nat.le_refl _, ?_, ?_, ?_⟩
        · simp
        · intro _
          refine ⟨trivial, ?_, ?_⟩
          · push_cast; ring
          · intro j hj
            rcases Nat.lt_succ_iff_lt_or_eq.1 hj with h | h
            · exact hall j h
            · rw [h]; exact hr
        · simp

/-- C8: in the driver loop, stepped `n` times from `seq = 1`: the sequence
numbers passed to `ping` are 1, 2, 3, ... in this order (the first probe has
sequence 1, the k-th has sequence k); for every k from 1 to n the k-th call is
made exactly when each of the k-1 calls before it returned false; a step from
a running loop whose call fails, whatever the failure, adds exactly 1 to `seq`
and keeps the loop running, and a step whose call succeeds ends the loop; the
loop has ended exactly when one of the calls so far returned true, and then
the call that ended it is the last one made and the first that returned
true. -/
theorem driver_loop (env : Host) (host : String) (dst : Addr) (isIPv6 : Bool) (n : Nat) :
    pingSeqs (loopRun env host dst isIPv6 n).events =
        (List.range (loopRun env host dst isIPv6 n).calls).map (fun (j : Nat) => (j : Int) + 1) ∧
      (∀ k, 1 ≤ k → k ≤ n →
        ((k ≤ (loopRun env host dst isIPv6 n).calls ↔
            ∀ j, j < k - 1 → callResult env dst isIPv6 j = false) ∧
          (k ≤ (loopRun env host dst isIPv6 n).calls →
            (pingSeqs (loopRun env host dst isIPv6 n).events)[k - 1]? = some (k : Int)))) ∧
      ((loopRun env host dst isIPv6 n).finished = false →
        (loopRun env host dst isIPv6 n).calls = n ∧
          (loopRun env host dst isIPv6 n).seq = (n : Int) + 1 ∧
          (callResult env dst isIPv6 n = false →
            (loopRun env host dst isIPv6 (n + 1)).seq =
                (loopRun env host dst isIPv6 n).seq + 1 ∧
              (loopRun env host dst isIPv6 (n + 1)).finished = false) ∧
          (callResult env dst isIPv6 n = true →
            (loopRun env host dst isIPv6 (n + 1)).finished = true)) ∧
      ((loopRun env host dst isIPv6 n).finished = true ↔
        ∃ j, j < n ∧ callResult env dst isIPv6 j = true) ∧
      ((loopRun env host dst isIPv6 n).finished = true →
        1 ≤ (loopRun env host dst isIPv6 n).calls ∧
          callResult env dst isIPv6 ((loopRun env host dst isIPv6 n).calls - 1) = true ∧
          (∀ j, j < (loopRun env host dst isIPv6 n).calls - 1 →
            callResult env dst isIPv6 j = false) ∧
          loopRun env host dst isIPv6 (n + 1) = loopRun env host dst isIPv6 n) := by
  obtain ⟨hle, hseqs, hrun, hfin⟩ := loopRun_inv env host dst isIPv6 n
  have hstep : loopRun env host dst isIPv6 (n + 1) =
      loopStep env host dst isIPv6 (loopRun env host dst isIPv6 n) := rfl
  refine ⟨hseqs, ?_, ?_, ?_, ?_⟩
  · intro k hk1 hkn
    constructor
    · cases hf : (loopRun env host dst isIPv6 n).finished with
      | false =>
        obtain ⟨hc, -, hall⟩ := hrun hf
        exact ⟨fun _ j hj => hall j (by omega), fun _ => by omega⟩
      | true =>
        obtain ⟨h1, -, hlast, hall⟩ := hfin hf
        constructor
        · intro hkc j hj
          exact hall j (by omega)
        · intro h
          by_contra hlt
          have := h ((loopRun env host dst isIPv6 n).calls - 1) (by omega)
          rw [this] at hlast
          exact Bool.noConfusion hlast
    · intro hkc
      rw [hseqs, List.getElem?_map, List.getElem?_range (by omega)]
      simp only [Option.map_some']
      congr 1
      omega
  · intro hf
    obtain ⟨hc, hs, -⟩ := hrun hf
    refine ⟨hc, hs, ?_, ?_⟩
    · intro hr
      have hres : (ping (env.SysAt (loopRun env host dst isIPv6 n).calls) dst
          (loopRun env host dst isIPv6 n).seq isIPv6).1 = false := by
        rw [hc, hs]; exact hr
      rw [hstep]
      simp [loopStep, hf, hres]
    · intro hr
      have hres : (ping (env.SysAt (loopRun env host dst isIPv6 n).calls) dst
          (loopRun env host dst isIPv6 n).seq isIPv6).1 = true := by
        rw [hc, hs]; exact hr
      rw [hstep]
      simp [loopStep, hf, hres]
  · cases hf : (loopRun env host dst isIPv6 n).finished with
    | false =>
      obtain ⟨-, -, hall⟩ := hrun hf
      simp only [Bool.false_eq_true, false_iff, not_exists, not_and]
      intro j hj hr
      rw [hall j hj] at hr
      exact Bool.noConfusion hr
    | true =>
      obtain ⟨h1, -, hlast, -⟩ := hfin hf
      simp only [true_iff]
      exact ⟨_, by omega, hlast⟩
  · intro hf
    obtain ⟨h1, -, hlast, hall⟩ := hfin hf
    refine ⟨h1, hlast, hall, ?_⟩
    rw [hstep]
    simp [loopStep, hf]

/-- An example run: two calls time out and the third is answered; `main`
issues the sequences 1, 2, 3 and leaves with exit code 0, while after two
iterations it is still running. -/
theorem main_flaky_example :
    pingSeqs (main (flakyHost 70000 2 ⟨[8, 8, 8, 8], ""⟩) ["hostwatch", "example"] 5).1 =
        [1, 2, 3] ∧
      (main (flakyHost 70000 2 ⟨[8, 8, 8, 8], ""⟩) ["hostwatch", "example"] 5).2 = some 0 ∧
      (main (flakyHost 70000 2 ⟨[8, 8, 8, 8], ""⟩) ["hostwatch", "example"] 2).2 = none ∧
      openSockets (main (flakyHost 70000 2 ⟨[8, 8, 8, 8], ""⟩) ["hostwatch", "example"] 5).1 =
        0 := by
  refine ⟨?_, ?_, ?_, ?_⟩ <;> decide

end Hostwatch
